import Mathlib

/-!
# Verification of the `flags` command-line parser

Shallow embedding of `flags.go` (package `flags` by Walter de Jong):
the option-descriptor table (`optionDef`, `defineOptions`, `makeOptionsMap`),
the tag grammar (`regexTag`, modelled as a leftmost-first backtracking
matcher over the exact pattern), the argument-scanning state machine
(`Parse`, lines 72-210), and the value mutations (`setOpt`, `setOptArg`).

Go strings are modelled as Lean `String` / `List Char`; Go's `int`/`uint`
are 64-bit machine integers, so increments wrap modulo `2 ^ 64`
(`wrap64`, `wrapU64`) and `strconv` range checks are explicit.
Go panics (unsupported field kinds, tag syntax errors) are modelled as
`Option`/`Except` error outcomes, kept distinct from ordinary parse errors.
-/

set_option maxHeartbeats 1000000
set_option maxRecDepth 100000

namespace Flags

/-- Field kinds accepted by the parser (`reflect.Bool/Int/Uint/String`,
flags.go lines 227-232); any other reflect kind panics in `defineOptions`
and is not representable in this model. -/
inductive FieldKind where
  | kBool
  | kInt
  | kUint
  | kString
deriving DecidableEq

/-- One field value of the bound record (the caller's tagged struct). -/
inductive FieldVal where
  | vBool (b : Bool)
  | vInt (i : Int)
  | vUInt (n : Nat)
  | vStr (s : String)
deriving DecidableEq

instance : Inhabited FieldVal := ⟨.vBool false⟩

/-- `optionDef` (flags.go lines 37-46). -/
structure OptionDef where
  shortOpt : String
  shortArg : String
  longOpt : String
  longArg : String
  requireArg : Bool
  help : String
  fieldIndex : Nat
  kind : FieldKind
deriving DecidableEq

instance : Inhabited OptionDef := ⟨⟨"", "", "", "", false, "", 0, .kBool⟩⟩

/-- `combineOptions` (flags.go lines 325-333). -/
def combineOptions (short long : String) : String :=
  if short ≠ "" ∧ long ≠ "" then short ++ ", " ++ long
  else if short ≠ "" then short
  else long

/-- Signed 64-bit wraparound, the effect of Go `int` arithmetic. -/
def wrap64 (i : Int) : Int := (i + 2 ^ 63) % 2 ^ 64 - 2 ^ 63

/-- Unsigned 64-bit wraparound, the effect of Go `uint` arithmetic. -/
def wrapU64 (n : Nat) : Nat := n % 2 ^ 64

/-- `setOpt` (flags.go lines 284-295): the no-value mutation.
Booleans are set to `true`, integers and unsigned integers are
incremented by one; any other field kind panics in Go (`none` here). -/
def setOpt : FieldVal → Option FieldVal
  | .vBool _ => some (.vBool true)
  | .vInt i => some (.vInt (wrap64 (i + 1)))
  | .vUInt n => some (.vUInt (wrapU64 (n + 1)))
  | .vStr _ => none

/-- Decimal digit run evaluation for `strconv` parsing; `none` on a
non-digit character. -/
def digitsVal : List Char → Nat → Option Nat
  | [], acc => some acc
  | c :: cs, acc => if c.isDigit then digitsVal cs (acc * 10 + (c.toNat - 48)) else none

/-- Nonempty all-digit run to `Nat`, else `none`. -/
def digitsToNat (l : List Char) : Option Nat :=
  if l.isEmpty then none else digitsVal l 0

/-- `strconv.ParseBool` over the canonical textual forms. -/
def goParseBool (s : String) : Option Bool :=
  if s = "1" ∨ s = "t" ∨ s = "T" ∨ s = "true" ∨ s = "TRUE" ∨ s = "True" then some true
  else if s = "0" ∨ s = "f" ∨ s = "F" ∨ s = "false" ∨ s = "FALSE" ∨ s = "False" then some false
  else none

/-- `strconv.ParseInt(s, 10, 64)`: optional leading sign, decimal digits,
value within the signed 64-bit range; `none` on any failure. -/
def goParseInt (s : String) : Option Int :=
  match s.data with
  | '+' :: rest => (digitsToNat rest).bind fun n =>
      if n ≤ 2 ^ 63 - 1 then some (n : Int) else none
  | '-' :: rest => (digitsToNat rest).bind fun n =>
      if n ≤ 2 ^ 63 then some (-(n : Int)) else none
  | l => (digitsToNat l).bind fun n =>
      if n ≤ 2 ^ 63 - 1 then some (n : Int) else none

/-- `strconv.ParseUint(s, 10, 64)`: no sign permitted, decimal digits,
value within the unsigned 64-bit range. -/
def goParseUint (s : String) : Option Nat :=
  (digitsToNat s.data).bind fun n => if n ≤ 2 ^ 64 - 1 then some n else none

/-- `setOptArg` (flags.go lines 297-323): coerce a textual option value
into the field; `none` models the returned `strconv` error. A text field
stores the value verbatim and never fails. -/
def setOptArg (field : FieldVal) (optarg : String) : Option FieldVal :=
  match field with
  | .vBool _ => (goParseBool optarg).map .vBool
  | .vInt _ => (goParseInt optarg).map .vInt
  | .vUInt _ => (goParseUint optarg).map .vUInt
  | .vStr _ => some (.vStr optarg)

/-- `strings.SplitN(arg, "=", 2)`: `some (before, after)` split at the
first `=`, `none` when the string holds no `=`. -/
def splitEq : List Char → Option (List Char × List Char)
  | [] => none
  | c :: cs =>
    if c = '=' then some ([], cs)
    else (splitEq cs).map fun p => (c :: p.1, p.2)

/-- `makeOptionsMap` worker: registration pairs in field order, both
spellings of each descriptor (flags.go lines 268-282). -/
def makeOptionsMapFrom : Nat → List OptionDef → List (String × Nat)
  | _, [] => []
  | i, d :: ds =>
    (if d.shortOpt ≠ "" then [(d.shortOpt, i)] else []) ++
      (if d.longOpt ≠ "" then [(d.longOpt, i)] else []) ++
      makeOptionsMapFrom (i + 1) ds

/-- `makeOptionsMap` (flags.go lines 268-282). -/
def makeOptionsMap (defs : List OptionDef) : List (String × Nat) :=
  makeOptionsMapFrom 0 defs

/-- Lookup in the options map; a later registration overwrites an earlier
one, as in a Go map assignment. -/
def lookupOpt (omap : List (String × Nat)) (s : String) : Option Nat :=
  (omap.reverse.find? fun p => p.1 == s).map (·.2)

/-- The mutable locals of one `Parse` call (flags.go lines 80-87) plus the
bound record the call writes into. -/
structure ScanState where
  record : List FieldVal
  args : List String
  argAlready : List String
  onlyArgsRemain : Bool
  expectOptArg : Bool
  expectOptIdx : Nat
deriving DecidableEq

/-- Parse errors returned by `Parse`, one constructor per distinct
`errors.New` site, carrying the formatted-in values. `panicked` models
the `setOpt` panic on an unsupported field kind. -/
inductive ParseError where
  | duplicateOption (opt : String)
  | invalidValue (opt optarg : String)
  | unknownOption (opt : String)
  | unknownOptionInCluster (opt arg : String)
  | takesNoArgument (opt : String)
  | requiresArgumentInCluster (opt : String)
  | truncated (opt optarg : String)
  | panicked (opt : String)
deriving DecidableEq

/-- Holds exactly when the error is the duplicate-option error. -/
def ParseError.isDup : ParseError → Bool
  | .duplicateOption _ => true
  | _ => false

/-- Pending-value consumption (flags.go lines 90-110): the token is the
value for the descriptor remembered in `expectOptIdx`; duplicate check
first, then coercion, then the assignment is recorded. -/
def handlePendingValue (defs : List OptionDef) (st : ScanState) (optarg : String) :
    ScanState × Option ParseError :=
  let optDef := defs.getD st.expectOptIdx default
  let opt := if optDef.longOpt = "" then optDef.shortOpt else optDef.longOpt
  let combined := combineOptions optDef.shortOpt optDef.longOpt
  if combined ∈ st.argAlready then
    (st, some (.duplicateOption combined))
  else
    match setOptArg (st.record.getD optDef.fieldIndex default) optarg with
    | none => (st, some (.invalidValue opt optarg))
    | some fv =>
        ({ st with record := st.record.set optDef.fieldIndex fv,
                   argAlready := combined :: st.argAlready,
                   expectOptArg := false }, none)

/-- Inline `opt=value` token (flags.go lines 129-152). -/
def handleInlineValue (defs : List OptionDef) (omap : List (String × Nat)) (st : ScanState)
    (optCs valCs : List Char) : ScanState × Option ParseError :=
  let opt := String.mk optCs
  let optarg := String.mk valCs
  match lookupOpt omap opt with
  | none => (st, some (.unknownOption opt))
  | some idx =>
    let optDef := defs.getD idx default
    if optDef.requireArg = false then (st, some (.takesNoArgument opt))
    else
      let combined := combineOptions optDef.shortOpt optDef.longOpt
      if combined ∈ st.argAlready then (st, some (.duplicateOption opt))
      else
        match setOptArg (st.record.getD optDef.fieldIndex default) optarg with
        | none => (st, some (.invalidValue opt optarg))
        | some fv =>
            ({ st with record := st.record.set optDef.fieldIndex fv,
                       argAlready := combined :: st.argAlready }, none)

/-- Short-option cluster scan (flags.go lines 155-177): characters after
the leading dash, `k` the current index and `total` the cluster length
(`len(arg[1:])`). A value-taking option is legal only as the final
character, where it sets the pending-value state and stops the scan. -/
def scanCluster (defs : List OptionDef) (omap : List (String × Nat)) (full : String) :
    List Char → Nat → Nat → ScanState → ScanState × Option ParseError
  | [], _, _, st => (st, none)
  | c :: cs, k, total, st =>
    let opt := String.mk ['-', c]
    match lookupOpt omap opt with
    | none => (st, some (.unknownOptionInCluster opt full))
    | some idx =>
      let optDef := defs.getD idx default
      if optDef.requireArg then
        if k ≥ total - 1 then ({ st with expectOptArg := true, expectOptIdx := idx }, none)
        else (st, some (.requiresArgumentInCluster opt))
      else
        match setOpt (st.record.getD optDef.fieldIndex default) with
        | none => (st, some (.panicked opt))
        | some fv =>
            scanCluster defs omap full cs (k + 1) total
              { st with record := st.record.set optDef.fieldIndex fv }

/-- Single bare option token, short or long (flags.go lines 179-190). -/
def handleBareOption (defs : List OptionDef) (omap : List (String × Nat)) (st : ScanState)
    (arg : String) : ScanState × Option ParseError :=
  match lookupOpt omap arg with
  | none => (st, some (.unknownOption arg))
  | some idx =>
    let optDef := defs.getD idx default
    if optDef.requireArg then ({ st with expectOptArg := true, expectOptIdx := idx }, none)
    else
      match setOpt (st.record.getD optDef.fieldIndex default) with
      | none => (st, some (.panicked arg))
      | some fv => ({ st with record := st.record.set optDef.fieldIndex fv }, none)

/-- The `=`-free dash token cases (flags.go lines 154-190): a token of
byte length > 2 whose second character is not a dash is a cluster
(`arg[1:]` scanned character-wise); anything else is a single bare
option. `rest` is the token's characters after the leading dash. -/
def handleClusterOrBare (defs : List OptionDef) (omap : List (String × Nat)) (st : ScanState)
    (arg : String) (rest : List Char) : ScanState × Option ParseError :=
  match rest with
  | c1 :: c2 :: cs =>
      if c1 = '-' then handleBareOption defs omap st arg
      else scanCluster defs omap arg (c1 :: c2 :: cs) 0 (cs.length + 2) st
  | _ => handleBareOption defs omap st arg

/-- Dash-leading token dispatch (flags.go lines 126-190): inline `=`
first (the token contains an `=`), otherwise the cluster/bare cases. -/
def handleOptionToken (defs : List OptionDef) (omap : List (String × Nat)) (st : ScanState)
    (arg : String) (rest : List Char) : ScanState × Option ParseError :=
  match splitEq ('-' :: rest) with
  | some (optCs, valCs) => handleInlineValue defs omap st optCs valCs
  | none => handleClusterOrBare defs omap st arg rest

/-- One iteration of the scan loop (flags.go lines 89-195), in source
order: pending value, literal-only mode, the `--` terminator (itself not
stored), the empty token (positional), dash-leading tokens, positionals. -/
def processToken (defs : List OptionDef) (omap : List (String × Nat)) (st : ScanState)
    (arg : String) : ScanState × Option ParseError :=
  if st.expectOptArg then handlePendingValue defs st arg
  else if st.onlyArgsRemain then ({ st with args := st.args ++ [arg] }, none)
  else if arg = "--" then ({ st with onlyArgsRemain := true }, none)
  else if arg = "" then ({ st with args := st.args ++ [arg] }, none)
  else
    match arg.data with
    | '-' :: rest => handleOptionToken defs omap st arg rest
    | _ => ({ st with args := st.args ++ [arg] }, none)

/-- The scan loop over all tokens; stops at the first error, like the
`return` statements inside the Go loop. -/
def parseLoop (defs : List OptionDef) (omap : List (String × Nat)) :
    ScanState → List String → ScanState × Option ParseError
  | st, [] => (st, none)
  | st, arg :: rest =>
    match processToken defs omap st arg with
    | (st', none) => parseLoop defs omap st' rest
    | (st', some e) => (st', some e)

/-- `Parse` given an already-built descriptor table (flags.go lines
77-209): skip `argv[0]`, run the loop, and reject a vector that ends
while still awaiting an option value. Returns the mutated record, the
collected positional arguments, and the error if any. -/
def parseWithDefs (defs : List OptionDef) (record : List FieldVal) (argv : List String) :
    List FieldVal × List String × Option ParseError :=
  let omap := makeOptionsMap defs
  match parseLoop defs omap ⟨record, [], [], false, false, 0⟩ (argv.drop 1) with
  | (st, some e) => (st.record, st.args, some e)
  | (st, none) =>
    if st.expectOptArg then
      let optDef := defs.getD st.expectOptIdx default
      let opt := if optDef.longOpt = "" then optDef.shortOpt else optDef.longOpt
      let optarg := if optDef.longArg = "" then optDef.shortArg else optDef.longArg
      (st.record, st.args, some (.truncated opt optarg))
    else (st.record, st.args, none)

/-- Go regexp `\s`: the Perl whitespace class `[\t\n\f\r ]`. -/
def isWsGo (c : Char) : Bool :=
  c == '\t' || c == '\n' || c == '\x0c' || c == '\r' || c == ' '

/-- ASCII `[a-zA-Z0-9]`. -/
def isAlnumGo (c : Char) : Bool := c.isAlpha || c.isDigit

/-- `[a-zA-Z0-9-]`. -/
def isAlnumDash (c : Char) : Bool := isAlnumGo c || c == '-'

/-- `[,\s]`. -/
def isCommaWs (c : Char) : Bool := c == ',' || isWsGo c

/-- `[^,\s]`. -/
def notCommaWs (c : Char) : Bool := !isCommaWs c

/-- The five capture groups of `regexTag` (flags.go lines 50-55); an
unmatched group captures the empty string, as in `FindStringSubmatch`. -/
structure TagMatch where
  short : List Char
  arg1 : List Char
  long : List Char
  arg2 : List Char
  help : List Char
deriving DecidableEq

/-- All captures empty. -/
def emptyMatch : TagMatch := ⟨[], [], [], [], []⟩

/-- Candidate consumptions of a greedy character-class run (`+` with
`minLen = 1`, `*` with `minLen = 0`), longest first — the order a
leftmost-first backtracking engine tries them in. -/
def classSplits (p : Char → Bool) (minLen : Nat) (s : List Char) :
    List (List Char × List Char) :=
  let run := s.takeWhile p
  let tail := s.drop run.length
  (List.range (run.length + 1)).reverse.filterMap fun i =>
    if minLen ≤ i then some (run.take i, run.drop i ++ tail) else none

/-- Whether `(?P<help>[^-\s].+)` can consume `s` entirely (it must, since
`$` follows): first character neither dash nor whitespace, at least one
further character, and no newline afterwards (`.` excludes newlines). -/
def helpWhole : List Char → Bool
  | [] => false
  | c :: rest => !(c == '-') && !isWsGo c && !rest.isEmpty && rest.all (fun ch => !(ch == '\n'))

/-- Tail of the pattern, `(?:[,\s]+(?P<help>[^-\s].+)?)?$`: separator run
(longest first), then help present before absent, else the group absent
and the input must be exhausted. -/
def matchTail (m : TagMatch) (s : List Char) : Option TagMatch :=
  ((classSplits isCommaWs 1 s).findSome? fun pr =>
      (if helpWhole pr.2 then some { m with help := pr.2 } else none)
        <|> (if pr.2.isEmpty then some m else none))
    <|> (if s.isEmpty then some m else none)

/-- `(?:(?P<long>--[a-zA-Z0-9][a-zA-Z0-9-]+)(?:=(?P<arg2>[^,\s]+))?)?`
followed by the pattern tail; the long-spelling run and the optional
inline placeholder backtrack longest-first, group presence before
absence. -/
def matchLongPart (m : TagMatch) (s : List Char) : Option TagMatch :=
  (match s with
   | '-' :: '-' :: c :: rest =>
     if isAlnumGo c then
       (classSplits isAlnumDash 1 rest).findSome? fun pr =>
         (match pr.2 with
          | '=' :: r3 =>
            (classSplits notCommaWs 1 r3).findSome? fun qr =>
              matchTail { m with long := '-' :: '-' :: c :: pr.1, arg2 := qr.1 } qr.2
          | _ => none)
           <|> matchTail { m with long := '-' :: '-' :: c :: pr.1 } pr.2
     else none
   | _ => none)
    <|> matchTail m s

/-- `(?:\s*,\s*)?` followed by the long-option part: both whitespace
stars backtrack, the mandatory comma in between, group presence before
absence. -/
def sepThenLong (m : TagMatch) (s : List Char) : Option TagMatch :=
  ((classSplits isWsGo 0 s).findSome? fun pr =>
      match pr.2 with
      | ',' :: r2 => (classSplits isWsGo 0 r2).findSome? fun qr => matchLongPart m qr.2
      | _ => none)
    <|> matchLongPart m s

/-- `(?:(?:(?P<short>-[a-zA-Z0-9-])(?:=(?P<arg1>[^,\s]+))?)?(?:\s*,\s*)?)?`
followed by the rest of the pattern. The outer group with both inner
parts absent consumes nothing, so it coincides with the group being
absent and the fallthrough covers both. -/
def matchShortPart (m : TagMatch) (s : List Char) : Option TagMatch :=
  (match s with
   | '-' :: c :: rest =>
     if isAlnumDash c then
       (match rest with
        | '=' :: r2 =>
          (classSplits notCommaWs 1 r2).findSome? fun pr =>
            sepThenLong { m with short := ['-', c], arg1 := pr.1 } pr.2
        | _ => none)
         <|> sepThenLong { m with short := ['-', c] } rest
     else none
   | _ => none)
    <|> sepThenLong m s

/-- The anchored match of `regexTag` against a whole tag string:
`some` with the five captures on success, `none` when
`FindStringSubmatch` returns no match. -/
def regexTagMatch (s : List Char) : Option TagMatch := matchShortPart emptyMatch s

/-- Table-construction failures, the panics of `defineOptions`
(flags.go lines 238-241 and 259-261). -/
inductive DefError where
  | grammarError (tag : String)
  | noSpelling (tag : String)
deriving DecidableEq

deriving instance DecidableEq for Except

/-- Compilation of one field tag into an `optionDef` (flags.go lines
238-263): run the tag grammar, build the descriptor, derive
`requireArg` from placeholder presence, and reject a descriptor with
neither spelling. -/
def defineOption (fieldIndex : Nat) (kind : FieldKind) (tag : String) :
    Except DefError OptionDef :=
  match regexTagMatch tag.data with
  | none => .error (.grammarError tag)
  | some m =>
    let opt : OptionDef :=
      { shortOpt := String.mk m.short
        shortArg := String.mk m.arg1
        longOpt := String.mk m.long
        longArg := String.mk m.arg2
        requireArg := String.mk m.arg1 != "" || String.mk m.arg2 != ""
        help := String.mk m.help
        fieldIndex := fieldIndex
        kind := kind }
    if opt.shortOpt = "" ∧ opt.longOpt = "" then .error (.noSpelling tag)
    else .ok opt

/-- `defineOptions` worker over the struct fields in declaration order;
a field with an empty tag carries no `flags` annotation and is skipped
(flags.go lines 221-224). -/
def defineOptionsFrom : Nat → List (String × FieldKind) → Except DefError (List OptionDef)
  | _, [] => .ok []
  | i, (tag, kind) :: rest =>
    if tag = "" then defineOptionsFrom (i + 1) rest
    else do
      let d ← defineOption i kind tag
      let ds ← defineOptionsFrom (i + 1) rest
      pure (d :: ds)

/-- `defineOptions` (flags.go lines 212-266), over the record's declared
shape: the tag and field kind of each struct field. -/
def defineOptions (fields : List (String × FieldKind)) : Except DefError (List OptionDef) :=
  defineOptionsFrom 0 fields

/-- `Parse` (flags.go lines 72-210): build the descriptor table from the
record shape, then scan the argument vector against it. A `DefError`
models the panics raised while the table is built, before any argument
is scanned. -/
def Parse (argv : List String) (fields : List (String × FieldKind)) (record : List FieldVal) :
    Except DefError (List FieldVal × List String × Option ParseError) :=
  (defineOptions fields).map fun defs => parseWithDefs defs record argv

/-- The example bound record's declared shape: the tagged struct of the
package documentation and tests (Help, Quiet, Verbose, Num, Unsigned,
File with their `flags` tags). -/
def exampleFields : List (String × FieldKind) :=
  [("-h, --help", .kBool),
   ("-q, --quiet             suppress output", .kBool),
   ("-v, --verbose           be more verbose (may be given multiple times)", .kInt),
   ("-n, --num=NUMBER        specify number", .kInt),
   ("-u, --unsigned=NUMBER   specify number >= 0", .kUint),
   ("-f, --file=FILE         specify filename", .kString)]

/-- The descriptor table the tag compiler produces for `exampleFields`
(checked below in `exampleDefs_compiled`). -/
def exampleDefs : List OptionDef :=
  [⟨"-h", "", "--help", "", false, "", 0, .kBool⟩,
   ⟨"-q", "", "--quiet", "", false, "suppress output", 1, .kBool⟩,
   ⟨"-v", "", "--verbose", "", false, "be more verbose (may be given multiple times)", 2, .kInt⟩,
   ⟨"-n", "", "--num", "NUMBER", true, "specify number", 3, .kInt⟩,
   ⟨"-u", "", "--unsigned", "NUMBER", true, "specify number >= 0", 4, .kUint⟩,
   ⟨"-f", "", "--file", "FILE", true, "specify filename", 5, .kString⟩]

/-- The spelling map of the example table. -/
def exampleOmap : List (String × Nat) := makeOptionsMap exampleDefs

/-- The zero-valued example record. -/
def exampleInit : List FieldVal :=
  [.vBool false, .vBool false, .vInt 0, .vInt 0, .vUInt 0, .vStr ""]

/-- The tag compiler really produces `exampleDefs` from the example
record's tags. -/
theorem exampleDefs_compiled : defineOptions exampleFields = .ok exampleDefs := by decide

/-- Fuel-driven worker for `unitMerges`; the fuel only bounds the
recursion depth so that the function reduces structurally. -/
def unitMergesF : Nat → List (List String) → List String → List (List String)
  | _, [], ys => [ys]
  | 0, us, _ => [us.flatten]
  | _ + 1, u :: us, [] => [(u :: us).flatten]
  | fuel + 1, u :: us, y :: ys =>
      ((unitMergesF fuel us (y :: ys)).map fun v => u ++ v) ++
        ((unitMergesF fuel (u :: us) ys).map fun v => y :: v)

/-- All interleavings (order-preserving merges) of a list of option
units — an option token together with the value token it consumes —
with a list of positional tokens. -/
def unitMerges (us : List (List String)) (ys : List String) : List (List String) :=
  unitMergesF (us.length + ys.length) us ys

/-- All ways to insert one element into a list. -/
def insertsOf {α : Type} (a : α) : List α → List (List α)
  | [] => [[a]]
  | b :: bs => (a :: b :: bs) :: (insertsOf a bs).map fun l => b :: l

/-- All permutations of a list, by successive insertion. -/
def permsOf {α : Type} : List α → List (List α)
  | [] => [[]]
  | a :: as => ((permsOf as).map (insertsOf a)).flatten

/-- The option units of the interleaving law: `-vvv`, `--num=10`,
`-f hello` (the value travels with its option), and `-q`. -/
def exampleUnits : List (List String) := [["-vvv"], ["--num=10"], ["-f", "hello"], ["-q"]]

/-- The record the interleaving law expects: verbose 3, num 10,
file "hello", quiet true, everything else zero-valued. -/
def c1Record : List FieldVal :=
  [.vBool false, .vBool true, .vInt 3, .vInt 10, .vUInt 0, .vStr "hello"]

/-- Every interleaving of every ordering of the option units with the
positional tokens `foo`, `bar`. -/
def c1Vectors : List (List String) :=
  ((permsOf exampleUnits).map fun us => unitMerges us ["foo", "bar"]).flatten

/-- C1: on the example bound record, parsing
`prog -vvv --num=10 -f hello foo bar -q` succeeds with positionals
`["foo", "bar"]` and field values verbose 3, num 10, file "hello",
quiet true; and every interleaving of the option units (in any order)
with the positional tokens `foo`, `bar` yields that same final record
and positional list. -/
theorem c1_interleaving_law :
    Parse ["prog", "-vvv", "--num=10", "-f", "hello", "foo", "bar", "-q"] exampleFields exampleInit
        = .ok (c1Record, ["foo", "bar"], none) ∧
    (c1Vectors.all fun v =>
        decide (parseWithDefs exampleDefs exampleInit ("prog" :: v)
          = (c1Record, ["foo", "bar"], none))) = true := by
  exact ⟨by decide, by decide⟩

/-- C4 counterexample: the annotation `"-q, --quiet -bad"` — a valid
short and long spelling block, separator characters, then trailing text
beginning with a dash — makes the tag compiler fail with a GrammarError
instead of succeeding with absent help, refuting the claim as stated. -/
theorem c4_leading_dash_cex :
    defineOption 1 .kBool "-q, --quiet -bad" = .error (.grammarError "-q, --quiet -bad") := by
  decide

/-- C4 amended: trailing content that begins with a dash is not
swallowed as absent help; the whole annotation fails to match the tag
grammar and the compiler fails with a GrammarError. Shown for the
spelling block `-q, --quiet` followed by a separator and any
dash-leading trailing text. -/
theorem c4_leading_dash_grammar_error (t : String) :
    defineOption 1 .kBool ("-q, --quiet -" ++ t)
      = .error (.grammarError ("-q, --quiet -" ++ t)) := by
  have h : ("-q, --quiet -" ++ t).data
      = ['-', 'q', ',', ' ', '-', '-', 'q', 'u', 'i', 'e', 't', ' ', '-'] ++ t.data := rfl
  simp only [defineOption, h]
  rfl

/-- C6: on the example record with any starting field values and any
scan state in normal mode, the cluster token `-qqqq` drives the state
machine to exactly the same outcome as the four tokens
`-q -q -q -q`; concretely both leave quiet true and succeed. -/
theorem c6_cluster_repeat_law :
    (∀ (b0 b1 : Bool) (v n : Int) (u : Nat) (f : String)
        (args already : List String) (j : Nat),
      parseLoop exampleDefs exampleOmap
          ⟨[.vBool b0, .vBool b1, .vInt v, .vInt n, .vUInt u, .vStr f],
            args, already, false, false, j⟩ ["-qqqq"]
        = parseLoop exampleDefs exampleOmap
          ⟨[.vBool b0, .vBool b1, .vInt v, .vInt n, .vUInt u, .vStr f],
            args, already, false, false, j⟩ ["-q", "-q", "-q", "-q"]) ∧
    parseWithDefs exampleDefs exampleInit ["prog", "-qqqq"]
      = ([.vBool false, .vBool true, .vInt 0, .vInt 0, .vUInt 0, .vStr ""], [], none) ∧
    parseWithDefs exampleDefs exampleInit ["prog", "-q", "-q", "-q", "-q"]
      = ([.vBool false, .vBool true, .vInt 0, .vInt 0, .vUInt 0, .vStr ""], [], none) := by
  exact ⟨fun b0 b1 v n u f args already j => rfl, by decide, by decide⟩

/-- C7: the no-value mutation sets a boolean field to true (so
repetition is idempotent) and increments an integer or unsigned-integer
field by one (within the 64-bit range); on the example record `-vvv`
leaves the verbose counter at 3. -/
theorem c7_no_value_mutation :
    (∀ b : Bool, setOpt (.vBool b) = some (.vBool true)) ∧
    (∀ i : Int, -(2 ^ 63) ≤ i → i + 1 < 2 ^ 63 → setOpt (.vInt i) = some (.vInt (i + 1))) ∧
    (∀ n : Nat, n + 1 < 2 ^ 64 → setOpt (.vUInt n) = some (.vUInt (n + 1))) ∧
    parseWithDefs exampleDefs exampleInit ["prog", "-vvv"]
      = ([.vBool false, .vBool false, .vInt 3, .vInt 0, .vUInt 0, .vStr ""], [], none) := by
  refine ⟨fun b => rfl, fun i h1 h2 => ?_, fun n h => ?_, by decide⟩
  · simp only [setOpt, wrap64]
    have : (i + 1 + 2 ^ 63) % 2 ^ 64 - 2 ^ 63 = i + 1 := by omega
    rw [this]
  · simp only [setOpt, wrapU64]
    rw [Nat.mod_eq_of_lt h]

/-- C7 witness: the mutation laws at concrete in-range inputs. -/
theorem c7_no_value_mutation_witness :
    setOpt (.vInt 41) = some (.vInt 42) ∧ setOpt (.vUInt 41) = some (.vUInt 42) :=
  ⟨c7_no_value_mutation.2.1 41 (by decide) (by decide),
   c7_no_value_mutation.2.2.1 41 (by decide)⟩

/-- C10: scanning `-vp` against the example table (which knows `-v` but
not `-p`) returns the unknown-option error, yet the verbose counter
incremented by the earlier `v` of the same cluster persists in the
record — the error does not roll back earlier in-cluster mutations. -/
theorem c10_cluster_mutations_persist :
    (∀ (b0 b1 : Bool) (v n : Int) (u : Nat) (f : String)
        (args already : List String) (j : Nat),
      processToken exampleDefs exampleOmap
          ⟨[.vBool b0, .vBool b1, .vInt v, .vInt n, .vUInt u, .vStr f],
            args, already, false, false, j⟩ "-vp"
        = (⟨[.vBool b0, .vBool b1, .vInt (wrap64 (v + 1)), .vInt n, .vUInt u, .vStr f],
              args, already, false, false, j⟩,
            some (.unknownOptionInCluster "-p" "-vp"))) ∧
    parseWithDefs exampleDefs exampleInit ["prog", "-vp"]
      = ([.vBool false, .vBool false, .vInt 1, .vInt 0, .vUInt 0, .vStr ""], [],
          some (.unknownOptionInCluster "-p" "-vp")) := by
  exact ⟨fun b0 b1 v n u f args already j => rfl, by decide⟩

/-- Once in literal-only mode with no pending value, every remaining
token is appended verbatim and the loop never errors. -/
theorem parseLoop_literalOnly (defs : List OptionDef) (omap : List (String × Nat)) :
    ∀ (rest : List String) (st : ScanState),
      st.expectOptArg = false → st.onlyArgsRemain = true →
      parseLoop defs omap st rest = ({ st with args := st.args ++ rest }, none) := by
  intro rest
  induction rest with
  | nil => intro st h1 h2; simp [parseLoop]
  | cons a rest ih =>
      intro st h1 h2
      have hstep : processToken defs omap st a = ({ st with args := st.args ++ [a] }, none) := by
        simp [processToken, h1, h2]
      rw [parseLoop, hstep]
      have hih := ih { st with args := st.args ++ [a] } h1 h2
      simpa [List.append_assoc] using hih

/-- C3: the `--` token scanned in normal mode is itself not stored and
only switches on literal-only mode; from then on every subsequent token
is appended verbatim to the positional arguments and never treated as
an option, whatever its shape. -/
theorem c3_terminator_law :
    (∀ (defs : List OptionDef) (omap : List (String × Nat)) (st : ScanState),
      st.expectOptArg = false → st.onlyArgsRemain = false →
      processToken defs omap st "--" = ({ st with onlyArgsRemain := true }, none)) ∧
    (∀ (defs : List OptionDef) (omap : List (String × Nat)) (st : ScanState)
        (rest : List String),
      st.expectOptArg = false → st.onlyArgsRemain = true →
      parseLoop defs omap st rest = ({ st with args := st.args ++ rest }, none)) := by
  constructor
  · intro defs omap st h1 h2
    simp [processToken, h1, h2]
  · intro defs omap st rest h1 h2
    exact parseLoop_literalOnly defs omap rest st h1 h2

/-- C3 witness: after `--` the option-shaped tokens `-x` and `--foo`
are collected as positionals on the example table. -/
theorem c3_terminator_law_witness :
    processToken exampleDefs exampleOmap ⟨exampleInit, [], [], false, false, 0⟩ "--"
        = (⟨exampleInit, [], [], true, false, 0⟩, none) ∧
    parseLoop exampleDefs exampleOmap ⟨exampleInit, [], [], true, false, 0⟩ ["-x", "--foo"]
        = (⟨exampleInit, ["-x", "--foo"], [], true, false, 0⟩, none) := by
  refine ⟨c3_terminator_law.1 exampleDefs exampleOmap _ rfl rfl, ?_⟩
  have h := c3_terminator_law.2 exampleDefs exampleOmap
    ⟨exampleInit, [], [], true, false, 0⟩ ["-x", "--foo"] rfl rfl
  simpa using h

/-- A token whose first character is not a dash is appended as a
positional argument whenever no option value is pending. -/
theorem processToken_no_dash (defs : List OptionDef) (omap : List (String × Nat))
    (st : ScanState) (a : String) (h1 : st.expectOptArg = false)
    (h : a.data.head? ≠ some '-') :
    processToken defs omap st a = ({ st with args := st.args ++ [a] }, none) := by
  have hdd : a ≠ "--" := by
    intro hx
    rw [hx] at h
    exact h rfl
  by_cases honly : st.onlyArgsRemain
  · simp [processToken, h1, honly]
  · by_cases hemp : a = ""
    · simp [processToken, h1, honly, hdd, hemp]
    · simp only [processToken, h1, honly, hdd, hemp, Bool.false_eq_true, if_false]
      cases hd : a.data with
      | nil => simp
      | cons c cs =>
          have hc : c ≠ '-' := by
            intro hx
            rw [hd, hx] at h
            exact h rfl
          simp [hc]

/-- The scan loop over option-free tokens only accumulates positionals. -/
theorem parseLoop_no_dash (defs : List OptionDef) (omap : List (String × Nat)) :
    ∀ (rest : List String) (st : ScanState),
      st.expectOptArg = false →
      (∀ a ∈ rest, a.data.head? ≠ some '-') →
      parseLoop defs omap st rest = ({ st with args := st.args ++ rest }, none) := by
  intro rest
  induction rest with
  | nil => intro st h1 _; simp [parseLoop]
  | cons a rest ih =>
      intro st h1 h2
      have hstep := processToken_no_dash defs omap st a h1 (h2 a (by simp))
      rw [parseLoop, hstep]
      have hih := ih { st with args := st.args ++ [a] } h1
        (fun b hb => h2 b (by simp [hb]))
      simpa [List.append_assoc] using hih

/-- C8: for every argument vector whose tokens (after the skipped
program name) all lack a leading dash — including empty-string tokens —
`parseWithDefs` succeeds, returns exactly those tokens in order as
positionals, and leaves the bound record untouched. -/
theorem c8_option_free_frame (defs : List OptionDef) (record : List FieldVal)
    (prog : String) (rest : List String)
    (h : ∀ a ∈ rest, a.data.head? ≠ some '-') :
    parseWithDefs defs record (prog :: rest) = (record, rest, none) := by
  have hloop := parseLoop_no_dash defs (makeOptionsMap defs) rest
    ⟨record, [], [], false, false, 0⟩ rfl h
  simp only [parseWithDefs, List.drop_succ_cons, List.drop_zero, hloop]
  simp

/-- C8 witness: an option-free vector with an empty-string token parses
to exactly its tokens with the example record unchanged. -/
theorem c8_option_free_frame_witness :
    parseWithDefs exampleDefs exampleInit ["prog", "alpha", "", "beta"]
      = (exampleInit, ["alpha", "", "beta"], none) :=
  c8_option_free_frame exampleDefs exampleInit "prog" ["alpha", "", "beta"] (by decide)

/-- C5: while scanning a cluster, a character mapping to a value-taking
descriptor transitions to the pending-value state when it is the last
character of the cluster (`k ≥ total - 1`), and otherwise fails with
the option-requires-an-argument cluster error; concretely `-qn 5`
assigns num from the next token while `-nq` fails. -/
theorem c5_cluster_value_last :
    (∀ (defs : List OptionDef) (omap : List (String × Nat)) (full : String)
        (st : ScanState) (c : Char) (cs : List Char) (k total idx : Nat),
      lookupOpt omap (String.mk ['-', c]) = some idx →
      (defs.getD idx default).requireArg = true →
      (k ≥ total - 1 →
        scanCluster defs omap full (c :: cs) k total st
          = ({ st with expectOptArg := true, expectOptIdx := idx }, none)) ∧
      (k < total - 1 →
        scanCluster defs omap full (c :: cs) k total st
          = (st, some (.requiresArgumentInCluster (String.mk ['-', c]))))) ∧
    parseWithDefs exampleDefs exampleInit ["prog", "-qn", "5"]
      = ([.vBool false, .vBool true, .vInt 0, .vInt 5, .vUInt 0, .vStr ""], [], none) ∧
    parseWithDefs exampleDefs exampleInit ["prog", "-nq"]
      = (exampleInit, [], some (.requiresArgumentInCluster "-n")) := by
  refine ⟨fun defs omap full st c cs k total idx hlook hreq => ⟨fun hlast => ?_, fun hmid => ?_⟩,
    by decide, by decide⟩
  · rw [scanCluster]
    simp only [hlook]
    rw [if_pos hreq, if_pos hlast]
  · rw [scanCluster]
    simp only [hlook]
    rw [if_pos hreq, if_neg (Nat.not_le.mpr hmid)]

/-- C5 witness: both cluster outcomes at concrete inputs of the example
table (`-n` is value-taking, descriptor index 3). -/
theorem c5_cluster_value_last_witness :
    scanCluster exampleDefs exampleOmap "-qn" ['n'] 1 2 ⟨exampleInit, [], [], false, false, 0⟩
        = (⟨exampleInit, [], [], false, true, 3⟩, none) ∧
    scanCluster exampleDefs exampleOmap "-nq" ['n', 'q'] 0 2 ⟨exampleInit, [], [], false, false, 0⟩
        = (⟨exampleInit, [], [], false, false, 0⟩, some (.requiresArgumentInCluster "-n")) :=
  ⟨(c5_cluster_value_last.1 exampleDefs exampleOmap "-qn"
      ⟨exampleInit, [], [], false, false, 0⟩ 'n' [] 1 2 3 (by decide) (by decide)).1 (by decide),
   (c5_cluster_value_last.1 exampleDefs exampleOmap "-nq"
      ⟨exampleInit, [], [], false, false, 0⟩ 'n' ['q'] 0 2 3 (by decide) (by decide)).2 (by decide)⟩

/-- The cluster scanner never raises the duplicate-option error: it
performs no duplicate check (a cluster-terminal value is checked only
when the next token is consumed). -/
theorem scanCluster_error_not_dup (defs : List OptionDef) (omap : List (String × Nat))
    (full : String) :
    ∀ (cs : List Char) (k total : Nat) (st st' : ScanState) (e : ParseError),
      scanCluster defs omap full cs k total st = (st', some e) → e.isDup = false := by
  intro cs
  induction cs with
  | nil =>
      intro k total st st' e h
      simp [scanCluster] at h
  | cons c cs ih =>
      intro k total st st' e h
      rw [scanCluster] at h
      rcases hlook : lookupOpt omap (String.mk ['-', c]) with _ | idx
      · rw [hlook] at h
        simp only [Prod.mk.injEq, Option.some.injEq] at h
        rw [← h.2]
        rfl
      · rw [hlook] at h
        simp only at h
        by_cases hreq : (defs.getD idx default).requireArg
        · rw [if_pos hreq] at h
          by_cases hlast : k ≥ total - 1
          · rw [if_pos hlast] at h
            simp at h
          · rw [if_neg hlast] at h
            simp only [Prod.mk.injEq, Option.some.injEq] at h
            rw [← h.2]
            rfl
        · rw [if_neg hreq] at h
          rcases hset : setOpt (st.record.getD (defs.getD idx default).fieldIndex default)
            with _ | fv
          · rw [hset] at h
            simp only [Prod.mk.injEq, Option.some.injEq] at h
            rw [← h.2]
            rfl
          · rw [hset] at h
            exact ih (k + 1) total _ st' e h

/-- A bare option token never raises the duplicate-option error (it
either errors differently or merely records the pending value). -/
theorem handleBareOption_error_not_dup (defs : List OptionDef) (omap : List (String × Nat))
    (st : ScanState) (arg : String) (st' : ScanState) (e : ParseError)
    (h : handleBareOption defs omap st arg = (st', some e)) : e.isDup = false := by
  rcases hlo : lookupOpt omap arg with _ | idx
  · simp only [handleBareOption, hlo] at h
    simp only [Prod.mk.injEq, Option.some.injEq] at h
    rw [← h.2]
    rfl
  · simp only [handleBareOption, hlo] at h
    by_cases hreq : (defs.getD idx default).requireArg
    · rw [if_pos hreq] at h
      simp at h
    · rw [if_neg hreq] at h
      rcases hset : setOpt (st.record.getD (defs.getD idx default).fieldIndex default)
          with _ | fv
      · rw [hset] at h
        simp only [Prod.mk.injEq, Option.some.injEq] at h
        rw [← h.2]
        rfl
      · rw [hset] at h
        simp at h

/-- If an inline `opt=value` token raises the duplicate-option error,
the scan state (record included) is returned unchanged. -/
theorem handleInlineValue_dup_frame (defs : List OptionDef) (omap : List (String × Nat))
    (st : ScanState) (optCs valCs : List Char) (st' : ScanState) (c : String)
    (h : handleInlineValue defs omap st optCs valCs = (st', some (.duplicateOption c))) :
    st' = st := by
  rcases hlo : lookupOpt omap (String.mk optCs) with _ | idx
  · simp only [handleInlineValue, hlo] at h
    simp at h
  · simp only [handleInlineValue, hlo] at h
    by_cases hreq : (defs.getD idx default).requireArg = false
    · rw [if_pos hreq] at h
      simp at h
    · rw [if_neg hreq] at h
      by_cases hmem : combineOptions (defs.getD idx default).shortOpt
          (defs.getD idx default).longOpt ∈ st.argAlready
      · rw [if_pos hmem] at h
        simp only [Prod.mk.injEq, Option.some.injEq] at h
        exact h.1.symm
      · rw [if_neg hmem] at h
        rcases hset : setOptArg (st.record.getD (defs.getD idx default).fieldIndex default)
            (String.mk valCs) with _ | fv
        · rw [hset] at h
          simp at h
        · rw [hset] at h
          simp at h

/-- If consuming a pending option value raises the duplicate-option
error, the scan state (record included) is returned unchanged. -/
theorem handlePendingValue_dup_frame (defs : List OptionDef) (st : ScanState)
    (arg : String) (st' : ScanState) (c : String)
    (h : handlePendingValue defs st arg = (st', some (.duplicateOption c))) : st' = st := by
  by_cases hmem : combineOptions (defs.getD st.expectOptIdx default).shortOpt
      (defs.getD st.expectOptIdx default).longOpt ∈ st.argAlready
  · simp only [handlePendingValue] at h
    rw [if_pos hmem] at h
    simp only [Prod.mk.injEq, Option.some.injEq] at h
    exact h.1.symm
  · simp only [handlePendingValue] at h
    rw [if_neg hmem] at h
    rcases hset : setOptArg (st.record.getD (defs.getD st.expectOptIdx default).fieldIndex
        default) arg with _ | fv
    · rw [hset] at h
      simp at h
    · rw [hset] at h
      simp at h

/-- The cluster/bare dispatch never raises the duplicate-option error. -/
theorem handleClusterOrBare_error_not_dup (defs : List OptionDef) (omap : List (String × Nat))
    (st : ScanState) (arg : String) (rest : List Char) (st' : ScanState) (e : ParseError)
    (h : handleClusterOrBare defs omap st arg rest = (st', some e)) : e.isDup = false := by
  rcases rest with _ | ⟨c1, rest1⟩
  · simp only [handleClusterOrBare] at h
    exact handleBareOption_error_not_dup defs omap st arg st' e h
  · rcases rest1 with _ | ⟨c2, cs⟩
    · simp only [handleClusterOrBare] at h
      exact handleBareOption_error_not_dup defs omap st arg st' e h
    · simp only [handleClusterOrBare] at h
      by_cases hc1 : c1 = '-'
      · rw [if_pos hc1] at h
        exact handleBareOption_error_not_dup defs omap st arg st' e h
      · rw [if_neg hc1] at h
        exact scanCluster_error_not_dup defs omap arg (c1 :: c2 :: cs) 0 (cs.length + 2)
          st st' e h

/-- If a dash-leading token raises the duplicate-option error, the scan
state is returned unchanged. -/
theorem handleOptionToken_dup_frame (defs : List OptionDef) (omap : List (String × Nat))
    (st : ScanState) (arg : String) (rest : List Char) (st' : ScanState) (c : String)
    (h : handleOptionToken defs omap st arg rest = (st', some (.duplicateOption c))) :
    st' = st := by
  rcases hsp : splitEq ('-' :: rest) with _ | ⟨optCs, valCs⟩
  · simp only [handleOptionToken, hsp] at h
    have := handleClusterOrBare_error_not_dup defs omap st arg rest st' _ h
    simp [ParseError.isDup] at this
  · simp only [handleOptionToken, hsp] at h
    exact handleInlineValue_dup_frame defs omap st optCs valCs st' c h

/-- C9: whenever one scan step fails with the duplicate-option error,
the resulting state equals the incoming state — in particular the
target field still holds the value of the first supply; the duplicate
check fires before the second value would be coerced or written. -/
theorem c9_duplicate_no_mutation (defs : List OptionDef) (omap : List (String × Nat))
    (st : ScanState) (arg : String) (st' : ScanState) (c : String)
    (h : processToken defs omap st arg = (st', some (.duplicateOption c))) : st' = st := by
  rw [processToken] at h
  by_cases h1 : st.expectOptArg
  · rw [if_pos h1] at h
    exact handlePendingValue_dup_frame defs st arg st' c h
  · rw [if_neg h1] at h
    by_cases h2 : st.onlyArgsRemain
    · rw [if_pos h2] at h
      simp at h
    · rw [if_neg h2] at h
      by_cases h3 : arg = "--"
      · rw [if_pos h3] at h
        simp at h
      · rw [if_neg h3] at h
        by_cases h4 : arg = ""
        · rw [if_pos h4] at h
          simp at h
        · rw [if_neg h4] at h
          split at h
          · rename_i rest heq
            exact handleOptionToken_dup_frame defs omap st arg rest st' c h
          · simp at h

/-- C9 witness: at a state where num already received a value via `-n`,
the inline second supply `--num=2` errors and returns the state — with
the record still holding num 1 — unchanged. -/
theorem c9_duplicate_no_mutation_witness :
    (processToken exampleDefs exampleOmap
        ⟨[.vBool false, .vBool false, .vInt 0, .vInt 1, .vUInt 0, .vStr ""],
          [], ["-n, --num"], false, false, 0⟩ "--num=2").1
      = ⟨[.vBool false, .vBool false, .vInt 0, .vInt 1, .vUInt 0, .vStr ""],
          [], ["-n, --num"], false, false, 0⟩ :=
  c9_duplicate_no_mutation exampleDefs exampleOmap _ "--num=2" _ "--num" (by decide)

/-- C2: a value-taking descriptor is assigned at most once across all of
its spellings. (a) Consuming a pending value for a descriptor already in
`argAlready` fails with the duplicate error and changes nothing. (b) An
inline `=` supply through any spelling of an already-assigned descriptor
likewise fails with the duplicate error. (c) A first pending supply
succeeds and records the descriptor's combined spelling. (d) A step that
assigns no value (no pending value, no `=` in the token) never raises the
duplicate error — detection happens exactly when the second value would
be assigned, not earlier. (e) Concretely, `-n 1 --num=2` fails with
DuplicateOption while `-n 1` alone succeeds. -/
theorem c2_duplicate_single_assignment :
    (∀ (defs : List OptionDef) (omap : List (String × Nat)) (st : ScanState) (arg : String),
      st.expectOptArg = true →
      combineOptions (defs.getD st.expectOptIdx default).shortOpt
          (defs.getD st.expectOptIdx default).longOpt ∈ st.argAlready →
      processToken defs omap st arg
        = (st, some (.duplicateOption (combineOptions
            (defs.getD st.expectOptIdx default).shortOpt
            (defs.getD st.expectOptIdx default).longOpt)))) ∧
    (∀ (defs : List OptionDef) (omap : List (String × Nat)) (st : ScanState) (arg : String)
        (rs optCs valCs : List Char) (idx : Nat),
      st.expectOptArg = false → st.onlyArgsRemain = false →
      arg.data = '-' :: rs →
      splitEq ('-' :: rs) = some (optCs, valCs) →
      lookupOpt omap (String.mk optCs) = some idx →
      (defs.getD idx default).requireArg = true →
      combineOptions (defs.getD idx default).shortOpt (defs.getD idx default).longOpt
          ∈ st.argAlready →
      processToken defs omap st arg = (st, some (.duplicateOption (String.mk optCs)))) ∧
    (∀ (defs : List OptionDef) (omap : List (String × Nat)) (st : ScanState) (arg : String)
        (fv : FieldVal),
      st.expectOptArg = true →
      combineOptions (defs.getD st.expectOptIdx default).shortOpt
          (defs.getD st.expectOptIdx default).longOpt ∉ st.argAlready →
      setOptArg (st.record.getD (defs.getD st.expectOptIdx default).fieldIndex default) arg
          = some fv →
      processToken defs omap st arg
        = ({ st with
              record := st.record.set (defs.getD st.expectOptIdx default).fieldIndex fv,
              argAlready := combineOptions (defs.getD st.expectOptIdx default).shortOpt
                  (defs.getD st.expectOptIdx default).longOpt :: st.argAlready,
              expectOptArg := false }, none)) ∧
    (∀ (defs : List OptionDef) (omap : List (String × Nat)) (st : ScanState) (arg : String)
        (st' : ScanState) (e : ParseError),
      st.expectOptArg = false → splitEq arg.data = none →
      processToken defs omap st arg = (st', some e) → e.isDup = false) ∧
    parseWithDefs exampleDefs exampleInit ["prog", "-n", "1", "--num=2"]
      = ([.vBool false, .vBool false, .vInt 0, .vInt 1, .vUInt 0, .vStr ""], [],
          some (.duplicateOption "--num")) ∧
    parseWithDefs exampleDefs exampleInit ["prog", "-n", "1"]
      = ([.vBool false, .vBool false, .vInt 0, .vInt 1, .vUInt 0, .vStr ""], [], none) := by
  refine ⟨?_, ?_, ?_, ?_, by decide, by decide⟩
  · intro defs omap st arg h1 hmem
    rw [processToken, if_pos h1]
    simp only [handlePendingValue]
    rw [if_pos hmem]
  · intro defs omap st arg rs optCs valCs idx h1 h2 hdata hsp hlook hreq hmem
    have h3 : arg ≠ "--" := by
      intro hx
      rw [hx] at hdata
      have h5 : ('-' : Char) :: ['-'] = '-' :: rs := hdata
      have h6 : rs = ['-'] := (List.cons.injEq _ _ _ _ ▸ h5).2.symm
      rw [h6] at hsp
      have h7 : splitEq ['-', '-'] = none := rfl
      rw [h7] at hsp
      cases hsp
    have h4 : arg ≠ "" := by
      intro hx
      rw [hx] at hdata
      exact List.noConfusion hdata
    rw [processToken, h1]
    simp only [Bool.false_eq_true, if_false]
    rw [if_neg (by rw [h2]; simp), if_neg h3, if_neg h4, hdata]
    simp only [handleOptionToken, hsp, handleInlineValue, hlook, hreq]
    simp only [Bool.true_eq_false, if_false]
    rw [if_pos hmem]
  · intro defs omap st arg fv h1 hmem hset
    rw [processToken, if_pos h1]
    simp only [handlePendingValue]
    rw [if_neg hmem, hset]
  · intro defs omap st arg st' e h1 h2 h
    rw [processToken] at h
    rw [h1] at h
    simp only [Bool.false_eq_true, if_false] at h
    by_cases honly : st.onlyArgsRemain
    · rw [if_pos honly] at h
      simp at h
    · rw [if_neg honly] at h
      by_cases h3 : arg = "--"
      · rw [if_pos h3] at h
        simp at h
      · rw [if_neg h3] at h
        by_cases h4 : arg = ""
        · rw [if_pos h4] at h
          simp at h
        · rw [if_neg h4] at h
          split at h
          · rename_i rest heq
            rw [heq] at h2
            simp only [handleOptionToken, h2] at h
            exact handleClusterOrBare_error_not_dup defs omap st arg rest st' e h
          · simp at h

/-- C2 witness: with num already assigned, the pending-value and the
inline second supplies both fail with DuplicateOption, leaving the
state unchanged. -/
theorem c2_duplicate_single_assignment_witness :
    processToken exampleDefs exampleOmap
        ⟨[.vBool false, .vBool false, .vInt 0, .vInt 1, .vUInt 0, .vStr ""],
          [], ["-n, --num"], false, true, 3⟩ "2"
      = (⟨[.vBool false, .vBool false, .vInt 0, .vInt 1, .vUInt 0, .vStr ""],
          [], ["-n, --num"], false, true, 3⟩, some (.duplicateOption "-n, --num")) ∧
    processToken exampleDefs exampleOmap
        ⟨[.vBool false, .vBool false, .vInt 0, .vInt 1, .vUInt 0, .vStr ""],
          [], ["-n, --num"], false, false, 0⟩ "--num=2"
      = (⟨[.vBool false, .vBool false, .vInt 0, .vInt 1, .vUInt 0, .vStr ""],
          [], ["-n, --num"], false, false, 0⟩, some (.duplicateOption "--num")) :=
  ⟨c2_duplicate_single_assignment.1 exampleDefs exampleOmap _ "2" rfl (by decide),
   c2_duplicate_single_assignment.2.1 exampleDefs exampleOmap _ "--num=2"
     ['-', 'n', 'u', 'm', '=', '2'] ['-', '-', 'n', 'u', 'm'] ['2'] 3
     rfl rfl rfl (by decide) (by decide) (by decide) (by decide)⟩

end Flags
